import Mathlib

/-!
Verification development for the adaptive request router and its round-robin
baseline (the two load-balancer applications of this repository:
`docker/managed/smart-lb/app.py` and `docker/baseline/simple-lb/app.py`).

The Python source is shallowly embedded in Lean:
* text processing (splitting the metrics payload into lines and whitespace
  tokens) is re-implemented over `List Char`;
* Python `float(...)` conversion is modelled by `pyFloat`, restricted to
  optionally-signed finite decimal numerals with optional fractional part and
  exponent (forms such as `inf`, `nan` or underscore separators are outside the
  model; no theorem below depends on them);
* queue depths live in `WithTop ℚ` — a finite rational for a parsed value and
  `⊤` for the `float('inf')` sentinel (the source never produces NaN depths);
* the module-level globals `VLLM_ENDPOINTS` and `endpoint_metrics` become
  explicit parameters of each embedded function;
* network effects are an oracle `net : String → ScrapeOutcome` giving each
  endpoint's scrape outcome, and the current time is an explicit parameter;
* the metrics cache (a Python dict keyed by endpoint address) is a list of
  entries with dict-assignment semantics (`cacheSet`): assigning to a present
  key replaces its value in place, a new key is appended.
-/

namespace SmartLB

/-- One queue-depth value: a finite rational, or `⊤` for `float('inf')`. -/
abbrev QDepth := WithTop ℚ

/-- Tokens produced by splitting a line on runs of whitespace, the model of
Python `str.split()` with no arguments (empty tokens are never produced). -/
def splitWsAux : List Char → List Char → List (List Char)
  | [], acc => if acc.isEmpty then [] else [acc.reverse]
  | c :: rest, acc =>
    if c.isWhitespace then
      if acc.isEmpty then splitWsAux rest []
      else acc.reverse :: splitWsAux rest []
    else splitWsAux rest (c :: acc)

/-- Model of Python `str.split()` (split on whitespace, dropping empties). -/
def pySplitWs (cs : List Char) : List (List Char) := splitWsAux cs []

/-- Split on newline characters, the model of Python `str.split('\n')`:
`"a\n"` gives two pieces, the second empty; `""` gives one empty piece. -/
def splitLinesAux : List Char → List Char → List (List Char)
  | [], acc => [acc.reverse]
  | c :: rest, acc =>
    if c = '\n' then acc.reverse :: splitLinesAux rest []
    else splitLinesAux rest (c :: acc)

/-- Model of Python `text.split('\n')`. -/
def splitLines (cs : List Char) : List (List Char) := splitLinesAux cs []

/-- Whether `p` is a leading segment of `l`. -/
def startsWithList : List Char → List Char → Bool
  | [], _ => true
  | _ :: _, [] => false
  | p :: ps, c :: cs => p = c && startsWithList ps cs

/-- Whether `p` occurs contiguously inside `l`, the model of Python `p in l`
on strings. -/
def containsSub (p : List Char) : List Char → Bool
  | [] => startsWithList p []
  | c :: rest => startsWithList p (c :: rest) || containsSub p rest

/-- Numeric value of a digit run. -/
def digitsVal (cs : List Char) : ℕ :=
  cs.foldl (fun a c => a * 10 + (c.toNat - 48)) 0

/-- Leading digit run of a character list, and the remainder. -/
def splitDigits (cs : List Char) : List Char × List Char :=
  (cs.takeWhile Char.isDigit, cs.dropWhile Char.isDigit)

/-- Unsigned part of `pyFloat`: digits, optional `.digits`, optional
exponent. Returns `none` when the text is not a well-formed numeral. -/
def pyFloatCore (cs : List Char) : Option ℚ :=
  let ip := (splitDigits cs).1
  let rest := (splitDigits cs).2
  let fracSplit : List Char × List Char :=
    match rest with
    | '.' :: r => splitDigits r
    | _ => ([], rest)
  let fp := fracSplit.1
  let rest2 := fracSplit.2
  if ip.isEmpty && fp.isEmpty then none
  else
    let mant : ℚ := (digitsVal ip : ℚ) + (digitsVal fp : ℚ) / (10 : ℚ) ^ fp.length
    match rest2 with
    | [] => some mant
    | e :: r3 =>
      if e = 'e' ∨ e = 'E' then
        let signedTail : Bool × List Char :=
          match r3 with
          | '+' :: r => (false, r)
          | '-' :: r => (true, r)
          | _ => (false, r3)
        let ed := (splitDigits signedTail.2).1
        let r5 := (splitDigits signedTail.2).2
        if ed.isEmpty ∨ ¬ r5.isEmpty then none
        else
          let ex : ℤ := if signedTail.1 then -(digitsVal ed : ℤ) else (digitsVal ed : ℤ)
          some (mant * (10 : ℚ) ^ ex)
      else none

/-- Model of Python `float(token)` on a whitespace-free token: an optional
sign followed by a finite decimal numeral; `none` models a `ValueError`. -/
def pyFloat (cs : List Char) : Option ℚ :=
  match cs with
  | '+' :: rest => pyFloatCore rest
  | '-' :: rest => (pyFloatCore rest).map (fun q => -q)
  | _ => pyFloatCore cs

/-- The queue-depth metric key the poller looks for,
`vllm:num_requests_waiting`. -/
def metricsKey : List Char := "vllm:num_requests_waiting".toList

/-- Whether a payload line is considered by the poller: it contains the
queue-depth key and does not start with `#`. -/
def metricsLineMatches (line : List Char) : Bool :=
  containsSub metricsKey line &&
    !(match line with
      | '#' :: _ => true
      | _ => false)

/-- Last whitespace token of a line, the model of `line.split()[-1]`
(`none` models the `IndexError` on an all-whitespace line). -/
def lastToken (line : List Char) : Option (List Char) :=
  (pySplitWs line).getLast?

/-- Value a payload line contributes to the queue depth: `some v` when the
line matches the key and its trailing token parses as a float, `none`
otherwise (non-matching line, or the caught `ValueError`/`IndexError`). -/
def lineValue (line : List Char) : Option ℚ :=
  if metricsLineMatches line then (lastToken line).bind pyFloat else none

/-- Model of the metric-extraction loop of `fetch_endpoint_metrics`: start
from `queue_depth = 0` and overwrite it with each matching, parseable line's
trailing token. -/
def parse_queue_depth (text : String) : ℚ :=
  (splitLines text.toList).foldl (fun acc line => (lineValue line).getD acc) 0

/-- One cache entry, the dict built by `fetch_endpoint_metrics`. -/
structure EndpointMetrics where
  endpoint : String
  queue_depth : QDepth
  timestamp : ℚ
  healthy : Bool
  deriving DecidableEq, Repr

/-- Outcome of one scrape of `GET endpoint/metrics`: a raised exception
(timeout, connection error) or an HTTP response with status and text body. -/
inductive ScrapeOutcome where
  | exn : ScrapeOutcome
  | response (status : ℕ) (body : String) : ScrapeOutcome
  deriving DecidableEq

/-- Embedding of `fetch_endpoint_metrics`: on an HTTP 200 response the entry
is healthy with the parsed queue depth; on any other status or on an
exception the entry is `{queue_depth: +∞, healthy: false}`. -/
def fetch_endpoint_metrics (net : String → ScrapeOutcome) (now : ℚ)
    (endpoint : String) : EndpointMetrics :=
  match net endpoint with
  | ScrapeOutcome.response 200 body =>
    { endpoint := endpoint
      queue_depth := ((parse_queue_depth body : ℚ) : QDepth)
      timestamp := now
      healthy := true }
  | _ =>
    { endpoint := endpoint
      queue_depth := (⊤ : QDepth)
      timestamp := now
      healthy := false }

/-- The metrics cache `endpoint_metrics`: a Python dict keyed by the
`endpoint` field of each entry, modelled as its list of entries. -/
abbrev Cache := List EndpointMetrics

/-- Model of `endpoint_metrics.get(endpoint, ...)`: the first entry stored
under the given address. -/
def lookupMetrics (cache : Cache) (endpoint : String) : Option EndpointMetrics :=
  cache.find? (fun m => m.endpoint == endpoint)

/-- Model of Python dict assignment `endpoint_metrics[key] = m`: a present
key has its value replaced in place, a new key is appended. -/
def cacheSet (cache : Cache) (m : EndpointMetrics) : Cache :=
  if cache.any (fun x => x.endpoint == m.endpoint) then
    cache.map (fun x => if x.endpoint == m.endpoint then m else x)
  else cache ++ [m]

/-- Queue depth the selector reads for an endpoint:
`endpoint_metrics.get(endpoint, {}).get("queue_depth", float('inf'))` —
an endpoint never scraped yet reads as `⊤`. -/
def cachedDepth (cache : Cache) (endpoint : String) : QDepth :=
  match lookupMetrics cache endpoint with
  | some m => m.queue_depth
  | none => (⊤ : QDepth)

/-- The scanning loop shared by both branches of `get_best_endpoint`:
`best_endpoint` starts at `first`, `min_queue_depth` at `float('inf')`, and
each candidate with a strictly smaller queue depth replaces the current
best. -/
def select_least (cache : Cache) (first : String) (candidates : List String) : String :=
  (candidates.foldl
    (fun acc endpoint =>
      let qd := cachedDepth cache endpoint
      if qd < acc.2 then (endpoint, qd) else acc)
    (first, (⊤ : QDepth))).1

/-- The `model_endpoints` dict literal built inside
`EndpointSelector.get_best_endpoint` from `self.endpoints[0]` …
`self.endpoints[5]`. -/
def model_registry (e0 e1 e2 e3 e4 e5 : String) : List (String × List String) :=
  [("meta-llama/Llama-3.1-8B-Instruct", [e0, e1]),
   ("Qwen/Qwen2.5-7B-Instruct", [e2, e3]),
   ("meta-llama/Llama-3.3-70B-Instruct", [e4, e5])]

/-- Model of Python list indexing `endpoints[i]`: out of range raises. -/
def nthEndpoint (endpoints : List String) (i : ℕ) : Except String String :=
  match endpoints[i]? with
  | some e => Except.ok e
  | none => Except.error "IndexError"

/-- Embedding of `EndpointSelector.get_best_endpoint`.  `endpoints` is
`self.endpoints`, `cache` the `endpoint_metrics` global, `model` the
optional model name.  A falsy model (absent or the empty string) takes the
global branch; a truthy model builds `model_endpoints` — indexing
`endpoints[0]`…`endpoints[5]`, which raises on a short list — and scans
`model_endpoints.get(model, endpoints[:2])`.  Errors model the raised
`IndexError`. -/
def get_best_endpoint (endpoints : List String) (cache : Cache)
    (model : Option String) : Except String String :=
  match model with
  | some m =>
    if m = "" then
      match endpoints with
      | [] => Except.error "IndexError"
      | e :: _ => Except.ok (select_least cache e endpoints)
    else do
      let e0 ← nthEndpoint endpoints 0
      let e1 ← nthEndpoint endpoints 1
      let e2 ← nthEndpoint endpoints 2
      let e3 ← nthEndpoint endpoints 3
      let e4 ← nthEndpoint endpoints 4
      let e5 ← nthEndpoint endpoints 5
      let candidates :=
        (List.lookup m (model_registry e0 e1 e2 e3 e4 e5)).getD (endpoints.take 2)
      match candidates with
      | [] => Except.error "IndexError"
      | c :: _ => pure (select_least cache c candidates)
  | none =>
    match endpoints with
    | [] => Except.error "IndexError"
    | e :: _ => Except.ok (select_least cache e endpoints)

/-- One tick of the `metrics_poller` loop: scrape every configured endpoint
(`asyncio.gather` keeps the order of `VLLM_ENDPOINTS`) and store each result
in the cache under its `endpoint` key.  The surrounding `try`/`except` and
the per-scrape exception handling make the tick a total function: no scrape
outcome can abort it. -/
def metrics_poll_tick (net : String → ScrapeOutcome) (now : ℚ)
    (endpoints : List String) (cache : Cache) : Cache :=
  (endpoints.map (fetch_endpoint_metrics net now)).foldl cacheSet cache

/-- Response of the adaptive variant's `GET /health` handler. -/
structure HealthResponse where
  status : String
  endpoints : ℕ
  healthy_endpoints : ℕ
  deriving DecidableEq, Repr

/-- Embedding of the smart load balancer's `health` handler. -/
def health_smart (endpoints : List String) (cache : Cache) : HealthResponse :=
  let healthy_count := cache.countP (fun m => m.healthy)
  { status := if healthy_count > 0 then "healthy" else "unhealthy"
    endpoints := endpoints.length
    healthy_endpoints := healthy_count }

/-- One entry of the `GET /v1/models` response. -/
structure ModelEntry where
  id : String
  object : String
  replicas : ℕ
  deriving DecidableEq, Repr

/-- The `GET /v1/models` response body. -/
structure ModelsResponse where
  object : String
  data : List ModelEntry
  deriving DecidableEq, Repr

/-- Embedding of the smart load balancer's `list_models` handler.  The
handler can read the module globals (the configured endpoints and the
metrics cache), passed here explicitly; its body is a fixed literal. -/
def list_models_smart (endpoints : List String) (cache : Cache) : ModelsResponse :=
  { object := "list"
    data :=
      [{ id := "meta-llama/Llama-3.1-8B-Instruct", object := "model", replicas := 2 },
       { id := "Qwen/Qwen2.5-7B-Instruct", object := "model", replicas := 2 },
       { id := "meta-llama/Llama-3.3-70B-Instruct", object := "model", replicas := 2 }] }

/-- Embedding of the baseline load balancer's `list_models` handler (its
only module global is the endpoint list). -/
def list_models_simple (endpoints : List String) : ModelsResponse :=
  { object := "list"
    data :=
      [{ id := "meta-llama/Llama-3.1-8B-Instruct", object := "model", replicas := 2 },
       { id := "Qwen/Qwen2.5-7B-Instruct", object := "model", replicas := 2 },
       { id := "meta-llama/Llama-3.3-70B-Instruct", object := "model", replicas := 2 }] }

/-- Parsed request body as `proxy_request` reads it: `body.get("model")`
and `body.get("stream", False)`. -/
structure ProxyBody where
  model : Option String
  stream : Bool

/-- Backend response as `proxy_request` consumes it: status code, declared
content type, byte-chunk stream, and the result of `response.json()`
(which can itself raise). -/
structure BackendResponse where
  status : ℕ
  contentType : Option String
  chunks : List String
  jsonContent : Except String String

/-- Response returned to the caller by `proxy_request`: a streamed relay,
a relayed JSON body, or the `HTTPException(status_code=500, detail=...)`
raised from the `except` block. -/
inductive ProxyResponse where
  | streamed (contentType : Option String) (status : ℕ) (chunks : List String)
  | jsonResp (content : String) (status : ℕ)
  | httpError (status : ℕ) (detail : String)
  deriving DecidableEq

/-- Embedding of `proxy_request` (the handler body is identical in both
variants; `select` abstracts the variant's selector call).  The effectful
steps become parameters: `parseBody` is `await request.json()` plus field
extraction, `post` is the single `client.post` to the chosen backend.  The
second component lists the backends actually contacted, so "no retry" is
visible in the result. -/
def proxy_request (parseBody : Except String ProxyBody)
    (select : Option String → Except String String)
    (post : String → Except String BackendResponse) :
    ProxyResponse × List String :=
  match parseBody with
  | Except.error e => (ProxyResponse.httpError 500 e, [])
  | Except.ok body =>
    match select body.model with
    | Except.error e => (ProxyResponse.httpError 500 e, [])
    | Except.ok endpoint =>
      match post endpoint with
      | Except.error e => (ProxyResponse.httpError 500 e, [endpoint])
      | Except.ok resp =>
        if body.stream then
          (ProxyResponse.streamed resp.contentType resp.status resp.chunks, [endpoint])
        else
          match resp.jsonContent with
          | Except.error e => (ProxyResponse.httpError 500 e, [endpoint])
          | Except.ok content => (ProxyResponse.jsonResp content resp.status, [endpoint])

end SmartLB

namespace SimpleLB

open SmartLB (model_registry)

/-- Mutable state of `RoundRobinSelector`: the per-model cycle iterators
and the global one, each modelled as the count of elements already taken
(an `itertools.cycle` position). -/
structure RRState where
  modelCursors : String → ℕ
  globalCursor : ℕ

/-- State at process start: every iterator at its first element. -/
def rrInitState : RRState := ⟨fun _ => 0, 0⟩

/-- Element an `itertools.cycle` over `l` yields at position `n`. -/
def cycleGet (l : List String) (n : ℕ) : String :=
  l.getD (n % l.length) ""

/-- Advancing the global iterator (`next(self.global_iterator)`). -/
def rrGlobalNext (endpoints : List String) (s : RRState) : String × RRState :=
  (cycleGet endpoints s.globalCursor,
   { s with globalCursor := s.globalCursor + 1 })

/-- Embedding of `RoundRobinSelector.get_next_endpoint`: a truthy model
name that is a key of `model_iterators` advances that model's own cycle;
anything else advances the global cycle.  `reg` is the `model_endpoints`
mapping built in the constructor (`model_registry` applied to
`endpoints[0]`…`endpoints[5]`). -/
def get_next_endpoint (reg : List (String × List String)) (endpoints : List String)
    (model : Option String) (s : RRState) : String × RRState :=
  match model with
  | some m =>
    if m = "" then rrGlobalNext endpoints s
    else
      match List.lookup m reg with
      | some eps =>
        (cycleGet eps (s.modelCursors m),
         { s with modelCursors := fun x => if x = m then s.modelCursors m + 1 else s.modelCursors x })
      | none => rrGlobalNext endpoints s
  | none => rrGlobalNext endpoints s

/-- Selector state after `n` consecutive calls with the same model
argument, starting at process start. -/
def rrStateAfter (reg : List (String × List String)) (endpoints : List String)
    (model : Option String) : ℕ → RRState
  | 0 => rrInitState
  | n + 1 => (get_next_endpoint reg endpoints model (rrStateAfter reg endpoints model n)).2

/-- Address returned by the `n`-th call (counting from 0) in a run of
consecutive calls with the same model argument. -/
def rrOutput (reg : List (String × List String)) (endpoints : List String)
    (model : Option String) (n : ℕ) : String :=
  (get_next_endpoint reg endpoints model (rrStateAfter reg endpoints model n)).1

end SimpleLB

namespace SmartLB

/-- If every line of a payload contributes no value, the extraction fold
returns its initial accumulator. -/
lemma foldl_lineValue_none {ls : List (List Char)}
    (h : ∀ line ∈ ls, lineValue line = none) (init : ℚ) :
    ls.foldl (fun acc line => (lineValue line).getD acc) init = init := by
  induction ls generalizing init with
  | nil => rfl
  | cons l ls ih =>
    rw [List.foldl_cons]
    have h0 : lineValue l = none := h l (List.mem_cons_self l ls)
    rw [h0]
    exact ih (fun x hx => h x (List.mem_cons_of_mem l hx)) init

/-- A payload none of whose lines yields a value parses to queue depth 0. -/
lemma parse_queue_depth_eq_zero {body : String}
    (h : ∀ line ∈ splitLines body.toList, lineValue line = none) :
    parse_queue_depth body = 0 :=
  foldl_lineValue_none h 0

/-- C1 counterexample: an HTTP 200 payload with no queue-depth line yields a
healthy entry with finite queue depth 0 — not the `{+∞, unhealthy}` failure
entry the claim requires. -/
theorem C1_counterexample :
    (fetch_endpoint_metrics
        (fun _ => ScrapeOutcome.response 200 "python_gc_objects_collected_total 450")
        0 "http://vllm-1:8000").healthy = true ∧
    (fetch_endpoint_metrics
        (fun _ => ScrapeOutcome.response 200 "python_gc_objects_collected_total 450")
        0 "http://vllm-1:8000").queue_depth ≠ (⊤ : QDepth) := by
  decide

/-- C1 (amended): on an HTTP 200 response none of whose lines yields a
queue-depth value (the key is absent, or every matching line's trailing
token fails to parse), `fetch_endpoint_metrics` returns a success-looking
entry `{queue_depth: 0, healthy: true}`, not the failure entry; the failure
entry `{queue_depth: +∞, healthy: false}` arises only from a non-200 status
or a raised exception. -/
theorem C1_http200_malformed_is_healthy_zero (net : String → ScrapeOutcome)
    (now : ℚ) (endpoint body : String)
    (hresp : net endpoint = ScrapeOutcome.response 200 body)
    (hnone : ∀ line ∈ splitLines body.toList, lineValue line = none) :
    fetch_endpoint_metrics net now endpoint =
      { endpoint := endpoint
        queue_depth := ((0 : ℚ) : QDepth)
        timestamp := now
        healthy := true } := by
  unfold fetch_endpoint_metrics
  rw [hresp]
  show ({ endpoint := endpoint
          queue_depth := ((parse_queue_depth body : ℚ) : QDepth)
          timestamp := now
          healthy := true } : EndpointMetrics) = _
  rw [parse_queue_depth_eq_zero hnone]

/-- Witness for the amended C1 theorem at a concrete scrape outcome. -/
theorem C1_http200_malformed_is_healthy_zero_witness :
    fetch_endpoint_metrics (fun _ => ScrapeOutcome.response 200 "foo 1") 0 "b" =
      { endpoint := "b"
        queue_depth := ((0 : ℚ) : QDepth)
        timestamp := 0
        healthy := true } :=
  C1_http200_malformed_is_healthy_zero _ 0 "b" "foo 1" rfl (by decide)

/-- C8: any failure while parsing the body, selecting a backend, contacting
the backend, or decoding its JSON is returned as a single 500 error carrying
the failure description, and at most one backend is ever contacted
(no retry). -/
theorem C8_proxy_error_single_500 (parseBody : Except String ProxyBody)
    (select : Option String → Except String String)
    (post : String → Except String BackendResponse) :
    (∀ e, parseBody = Except.error e →
      proxy_request parseBody select post = (ProxyResponse.httpError 500 e, [])) ∧
    (∀ b e, parseBody = Except.ok b → select b.model = Except.error e →
      proxy_request parseBody select post = (ProxyResponse.httpError 500 e, [])) ∧
    (∀ b ep e, parseBody = Except.ok b → select b.model = Except.ok ep →
      post ep = Except.error e →
      proxy_request parseBody select post = (ProxyResponse.httpError 500 e, [ep])) ∧
    (∀ b ep resp e, parseBody = Except.ok b → select b.model = Except.ok ep →
      post ep = Except.ok resp → b.stream = false → resp.jsonContent = Except.error e →
      proxy_request parseBody select post = (ProxyResponse.httpError 500 e, [ep])) ∧
    (proxy_request parseBody select post).2.length ≤ 1 := by
  refine ⟨?_, ?_, ?_, ?_, ?_⟩
  · rintro e rfl; rfl
  · rintro b e rfl hsel; simp [proxy_request, hsel]
  · rintro b ep e rfl hsel hpost; simp [proxy_request, hsel, hpost]
  · rintro b ep resp e rfl hsel hpost hstream hjson
    simp [proxy_request, hsel, hpost, hstream, hjson]
  · unfold proxy_request
    rcases parseBody with e | b
    · simp
    · rcases hsel : select b.model with e | ep
      · simp [hsel]
      · rcases hpost : post ep with e | r
        · simp [hsel, hpost]
        · rcases hb : b.stream
          · rcases hj : r.jsonContent with e | j <;> simp [hsel, hpost, hb, hj]
          · simp [hsel, hpost, hb]

/-- Witness for C8 at a concrete failing parse. -/
theorem C8_proxy_error_single_500_witness :
    proxy_request (Except.error "Expecting value: line 1 column 1 (char 0)")
        (fun _ => Except.ok "http://vllm-1:8000")
        (fun _ => Except.error "unreachable") =
      (ProxyResponse.httpError 500 "Expecting value: line 1 column 1 (char 0)", []) :=
  (C8_proxy_error_single_500 _ _ _).1 _ rfl

/-- C9: both variants' models listing is the same fixed three-entry list
with two replicas per model, independent of the configured endpoints and of
the cache state. -/
theorem C9_models_listing_constant (eps eps' : List String) (c c' : Cache) :
    list_models_smart eps c = list_models_simple eps' ∧
    list_models_smart eps c = list_models_smart eps' c' ∧
    (list_models_smart eps c).data.length = 3 ∧
    (list_models_smart eps c).data.all (fun m => m.replicas == 2) = true :=
  ⟨rfl, rfl, rfl, rfl⟩

/-- Witness for C9 at concrete configurations. -/
theorem C9_models_listing_constant_witness :
    list_models_smart ["http://a:8000"] [] = list_models_simple [] :=
  (C9_models_listing_constant ["http://a:8000"] [] [] []).1

/-- C10: the adaptive health endpoint reports "healthy" iff some cache entry
is healthy; on the empty cache (before the first poll tick) it reports
"unhealthy" with zero healthy endpoints, whatever the configured endpoint
list. -/
theorem C10_health_status_iff (eps : List String) (c : Cache) :
    ((health_smart eps c).status = "healthy" ↔ ∃ m ∈ c, m.healthy = true) ∧
    (health_smart eps []).status = "unhealthy" ∧
    (health_smart eps []).healthy_endpoints = 0 := by
  refine ⟨?_, rfl, rfl⟩
  unfold health_smart
  by_cases h : 0 < c.countP (fun m => m.healthy)
  · simp only [gt_iff_lt, h, if_true]
    simp only [List.countP_pos_iff] at h
    simpa using h
  · simp only [gt_iff_lt, h, if_false]
    simp only [List.countP_pos_iff] at h
    constructor
    · intro hc; exact absurd hc (by decide)
    · intro hex; exact absurd (by simpa using hex) h

/-- Witness for C10 on the empty cache. -/
theorem C10_health_status_iff_witness :
    (health_smart ["http://a:8000", "http://b:8000"] []).status = "unhealthy" :=
  (C10_health_status_iff ["http://a:8000", "http://b:8000"] []).2.1

/-- Equality of `Except String String` results is decidable. -/
instance : DecidableEq (Except String String) := fun x y =>
  match x, y with
  | Except.ok a, Except.ok b =>
    if h : a = b then isTrue (by rw [h])
    else isFalse (fun hc => by cases hc; exact h rfl)
  | Except.error a, Except.error b =>
    if h : a = b then isTrue (by rw [h])
    else isFalse (fun hc => by cases hc; exact h rfl)
  | Except.ok _, Except.error _ => isFalse (fun hc => by cases hc)
  | Except.error _, Except.ok _ => isFalse (fun hc => by cases hc)

/-- On a two-candidate list the scanning loop returns the first candidate
attaining the minimum cached queue depth (ties go to the earlier one, and a
depth of `⊤` never displaces the initial best). -/
lemma select_least_pair (cache : Cache) (a b r : String)
    (hfind : [a, b].find? (fun c => [a, b].all
        (fun c2 => decide (cachedDepth cache c ≤ cachedDepth cache c2))) = some r) :
    select_least cache a [a, b] = r := by
  rcases le_or_lt (cachedDepth cache a) (cachedDepth cache b) with hab | hba
  · have hr : a = r := by
      have hpa : ([a, b].all
          (fun c2 => decide (cachedDepth cache a ≤ cachedDepth cache c2))) = true := by
        simp [List.all_cons, hab]
      simp only [List.find?_cons] at hfind
      rw [hpa] at hfind
      simpa using hfind
    rw [← hr]
    by_cases ha : cachedDepth cache a = ⊤
    · have hb : cachedDepth cache b = ⊤ := top_le_iff.mp (ha ▸ hab)
      simp [select_least, ha, hb, lt_self_iff_false]
    · have ha' : cachedDepth cache a < ⊤ := lt_top_iff_ne_top.mpr ha
      simp [select_least, ha', not_lt.mpr hab]
  · have hr : b = r := by
      have hpa : ([a, b].all
          (fun c2 => decide (cachedDepth cache a ≤ cachedDepth cache c2))) = false := by
        simp [List.all_cons, not_le.mpr hba]
      have hpb : ([a, b].all
          (fun c2 => decide (cachedDepth cache b ≤ cachedDepth cache c2))) = true := by
        simp [List.all_cons, le_of_lt hba]
      simp only [List.find?_cons] at hfind
      rw [hpa, hpb] at hfind
      simpa using hfind
    rw [← hr]
    by_cases ha : cachedDepth cache a = ⊤
    · have hb' : cachedDepth cache b < ⊤ := ha ▸ hba
      simp [select_least, ha, hb', lt_self_iff_false]
    · have ha' : cachedDepth cache a < ⊤ := lt_top_iff_ne_top.mpr ha
      simp [select_least, ha', hba]

/-- C2 counterexample: with six configured backends, an unregistered model
name is scanned over the first two backends only — here backend "c" has
strictly lower queue depth than the chosen "b", so the candidate set is not
the full global list. -/
theorem C2_counterexample :
    get_best_endpoint ["a", "b", "c", "d", "e", "f"]
        [⟨"a", ((5 : ℚ) : QDepth), 0, true⟩,
         ⟨"b", ((3 : ℚ) : QDepth), 0, true⟩,
         ⟨"c", ((0 : ℚ) : QDepth), 0, true⟩]
        (some "mistralai/Mistral-7B-Instruct-v0.3") = Except.ok "b" ∧
    cachedDepth
        [⟨"a", ((5 : ℚ) : QDepth), 0, true⟩,
         ⟨"b", ((3 : ℚ) : QDepth), 0, true⟩,
         ⟨"c", ((0 : ℚ) : QDepth), 0, true⟩] "c" <
      cachedDepth
        [⟨"a", ((5 : ℚ) : QDepth), 0, true⟩,
         ⟨"b", ((3 : ℚ) : QDepth), 0, true⟩,
         ⟨"c", ((0 : ℚ) : QDepth), 0, true⟩] "b" := by
  decide

/-- C2 (amended): for a non-empty model name that is not a registry key, the
candidate set is `endpoints[:2]` — the first two configured backends — and
the selection is the minimum-queue-depth scan over those two only. -/
theorem C2_unregistered_scans_first_two (e0 e1 e2 e3 e4 e5 : String)
    (rest : List String) (cache : Cache) (m : String)
    (hm : ¬ m = "")
    (h1 : ¬ m = "meta-llama/Llama-3.1-8B-Instruct")
    (h2 : ¬ m = "Qwen/Qwen2.5-7B-Instruct")
    (h3 : ¬ m = "meta-llama/Llama-3.3-70B-Instruct") :
    get_best_endpoint (e0 :: e1 :: e2 :: e3 :: e4 :: e5 :: rest) cache (some m) =
      Except.ok (select_least cache e0 [e0, e1]) := by
  have b1 : (m == "meta-llama/Llama-3.1-8B-Instruct") = false := beq_eq_false_iff_ne.mpr h1
  have b2 : (m == "Qwen/Qwen2.5-7B-Instruct") = false := beq_eq_false_iff_ne.mpr h2
  have b3 : (m == "meta-llama/Llama-3.3-70B-Instruct") = false := beq_eq_false_iff_ne.mpr h3
  simp [get_best_endpoint, hm, nthEndpoint, model_registry, List.lookup, b1, b2, b3,
    List.take, Bind.bind, Except.bind, Pure.pure, Except.pure]

/-- Witness for the amended C2 theorem. -/
theorem C2_unregistered_scans_first_two_witness :
    get_best_endpoint ["a", "b", "c", "d", "e", "f"] []
        (some "mistralai/Mistral-7B-Instruct-v0.3") =
      Except.ok (select_least [] "a" ["a", "b"]) :=
  C2_unregistered_scans_first_two "a" "b" "c" "d" "e" "f" [] [] _
    (by decide) (by decide) (by decide) (by decide)

/-- C3 counterexample: on a non-empty backend list with fewer than six
entries, a call carrying a model name raises (list index out of range)
instead of returning a backend. -/
theorem C3_counterexample :
    get_best_endpoint ["http://a:8000"] [] (some "any-model") =
        Except.error "IndexError" ∧
    ("http://a:8000" :: ([] : List String)) ≠ [] := by
  decide

/-- Splitting off the first six elements of a list of length at least 6. -/
lemma exists_six_of_length {l : List String} (h : 6 ≤ l.length) :
    ∃ a b c d e f t, l = a :: b :: c :: d :: e :: f :: t := by
  match l with
  | a :: b :: c :: d :: e :: f :: t => exact ⟨a, b, c, d, e, f, t, rfl⟩
  | [] | [_] | [_, _] | [_, _, _] | [_, _, _, _] | [_, _, _, _, _] => simp at h

/-- C3 (amended): the adaptive selector returns exactly one backend and
never errors whenever the configured list has at least six backends, or the
model field is absent or empty and the list is non-empty; with fewer than
six backends and a non-empty model name it raises an out-of-range access
(see the counterexample). -/
theorem C3_selector_total (endpoints : List String) (cache : Cache)
    (model : Option String)
    (h : 6 ≤ endpoints.length ∨
         (endpoints ≠ [] ∧ (model = none ∨ model = some ""))) :
    ∃ addr, get_best_endpoint endpoints cache model = Except.ok addr := by
  rcases h with h6 | ⟨hne, hmodel⟩
  · obtain ⟨a, b, c, d, e, f, t, rfl⟩ := exists_six_of_length h6
    rcases model with _ | m
    · exact ⟨_, rfl⟩
    · by_cases hm : m = ""
      · subst hm; exact ⟨_, rfl⟩
      · by_cases h1 : m = "meta-llama/Llama-3.1-8B-Instruct"
        · subst h1
          exact ⟨select_least cache a [a, b], by
            simp [get_best_endpoint, nthEndpoint, model_registry, List.lookup,
              Bind.bind, Except.bind, Pure.pure, Except.pure]⟩
        · by_cases h2 : m = "Qwen/Qwen2.5-7B-Instruct"
          · subst h2
            exact ⟨select_least cache c [c, d], by
              simp [get_best_endpoint, nthEndpoint, model_registry, List.lookup,
                Bind.bind, Except.bind, Pure.pure, Except.pure]⟩
          · by_cases h3 : m = "meta-llama/Llama-3.3-70B-Instruct"
            · subst h3
              exact ⟨select_least cache e [e, f], by
                simp [get_best_endpoint, nthEndpoint, model_registry, List.lookup,
                  Bind.bind, Except.bind, Pure.pure, Except.pure]⟩
            · have b1 : (m == "meta-llama/Llama-3.1-8B-Instruct") = false :=
                beq_eq_false_iff_ne.mpr h1
              have b2 : (m == "Qwen/Qwen2.5-7B-Instruct") = false :=
                beq_eq_false_iff_ne.mpr h2
              have b3 : (m == "meta-llama/Llama-3.3-70B-Instruct") = false :=
                beq_eq_false_iff_ne.mpr h3
              exact ⟨select_least cache a [a, b], by
                simp [get_best_endpoint, hm, nthEndpoint, model_registry, List.lookup,
                  b1, b2, b3, List.take, Bind.bind, Except.bind, Pure.pure, Except.pure]⟩
  · rcases endpoints with _ | ⟨e, t⟩
    · exact absurd rfl hne
    · rcases hmodel with rfl | rfl
      · exact ⟨_, rfl⟩
      · exact ⟨_, rfl⟩

/-- Witness for the amended C3 theorem with six configured backends. -/
theorem C3_selector_total_witness :
    ∃ addr, get_best_endpoint ["a", "b", "c", "d", "e", "f"] []
        (some "any-model") = Except.ok addr :=
  C3_selector_total ["a", "b", "c", "d", "e", "f"] [] (some "any-model")
    (Or.inl (by decide))

/-- C4: for a registered model, the selector returns the first candidate in
registry order attaining the minimum cached queue depth — in particular the
strictly least-loaded replica when one exists, and the earlier replica on
ties. -/
theorem C4_selector_first_minimum (e0 e1 e2 e3 e4 e5 : String)
    (rest : List String) (cache : Cache) (m : String) (cs : List String)
    (r : String)
    (hreg : List.lookup m (model_registry e0 e1 e2 e3 e4 e5) = some cs)
    (hfirstmin : cs.find? (fun c => cs.all
        (fun c2 => decide (cachedDepth cache c ≤ cachedDepth cache c2))) = some r) :
    get_best_endpoint (e0 :: e1 :: e2 :: e3 :: e4 :: e5 :: rest) cache (some m) =
      Except.ok r := by
  by_cases h1 : m = "meta-llama/Llama-3.1-8B-Instruct"
  · subst h1
    simp [model_registry, List.lookup] at hreg
    subst hreg
    simp [get_best_endpoint, nthEndpoint, model_registry, List.lookup,
      Bind.bind, Except.bind, Pure.pure, Except.pure]
    exact select_least_pair cache e0 e1 r hfirstmin
  · by_cases h2 : m = "Qwen/Qwen2.5-7B-Instruct"
    · subst h2
      simp [model_registry, List.lookup] at hreg
      subst hreg
      simp [get_best_endpoint, nthEndpoint, model_registry, List.lookup,
        Bind.bind, Except.bind, Pure.pure, Except.pure]
      exact select_least_pair cache e2 e3 r hfirstmin
    · by_cases h3 : m = "meta-llama/Llama-3.3-70B-Instruct"
      · subst h3
        simp [model_registry, List.lookup] at hreg
        subst hreg
        simp [get_best_endpoint, nthEndpoint, model_registry, List.lookup,
          Bind.bind, Except.bind, Pure.pure, Except.pure]
        exact select_least_pair cache e4 e5 r hfirstmin
      · have b1 : (m == "meta-llama/Llama-3.1-8B-Instruct") = false :=
          beq_eq_false_iff_ne.mpr h1
        have b2 : (m == "Qwen/Qwen2.5-7B-Instruct") = false :=
          beq_eq_false_iff_ne.mpr h2
        have b3 : (m == "meta-llama/Llama-3.3-70B-Instruct") = false :=
          beq_eq_false_iff_ne.mpr h3
        simp [model_registry, List.lookup, b1, b2, b3] at hreg

/-- Witness for C4: the second Qwen replica "d" has strictly lower depth,
and the selector picks it. -/
theorem C4_selector_first_minimum_witness :
    get_best_endpoint ["a", "b", "c", "d", "e", "f"]
        [⟨"c", ((4 : ℚ) : QDepth), 0, true⟩,
         ⟨"d", ((1 : ℚ) : QDepth), 0, true⟩]
        (some "Qwen/Qwen2.5-7B-Instruct") = Except.ok "d" :=
  C4_selector_first_minimum "a" "b" "c" "d" "e" "f" [] _ _ ["c", "d"] "d"
    (by decide) (by decide)

/-- C5: when every candidate replica of a registered model reads as `⊤`
(failed scrapes or never-scraped backends alike), the selector returns the
first replica in registry order; being a pure function of the cache, every
repeated call under the same cache state returns that same address. -/
theorem C5_all_inf_returns_first (e0 e1 e2 e3 e4 e5 : String)
    (rest : List String) (cache : Cache) (m : String) (cs : List String)
    (hreg : List.lookup m (model_registry e0 e1 e2 e3 e4 e5) = some cs)
    (htop : ∀ c ∈ cs, cachedDepth cache c = (⊤ : QDepth)) :
    get_best_endpoint (e0 :: e1 :: e2 :: e3 :: e4 :: e5 :: rest) cache (some m) =
      Except.ok (cs.headD "") := by
  have hpair : ∀ x y, cs = [x, y] →
      get_best_endpoint (e0 :: e1 :: e2 :: e3 :: e4 :: e5 :: rest) cache (some m) =
        Except.ok x →
      get_best_endpoint (e0 :: e1 :: e2 :: e3 :: e4 :: e5 :: rest) cache (some m) =
        Except.ok (cs.headD "") := by
    rintro x y rfl hx; simpa using hx
  by_cases h1 : m = "meta-llama/Llama-3.1-8B-Instruct"
  · subst h1
    simp [model_registry, List.lookup] at hreg
    subst hreg
    refine hpair e0 e1 rfl ?_
    have h0 := htop e0 (by simp)
    have h1' := htop e1 (by simp)
    simp [get_best_endpoint, nthEndpoint, model_registry, List.lookup, select_least,
      h0, h1', lt_self_iff_false, Bind.bind, Except.bind, Pure.pure, Except.pure]
  · by_cases h2 : m = "Qwen/Qwen2.5-7B-Instruct"
    · subst h2
      simp [model_registry, List.lookup] at hreg
      subst hreg
      refine hpair e2 e3 rfl ?_
      have h0 := htop e2 (by simp)
      have h1' := htop e3 (by simp)
      simp [get_best_endpoint, nthEndpoint, model_registry, List.lookup, select_least,
        h0, h1', lt_self_iff_false, Bind.bind, Except.bind, Pure.pure, Except.pure]
    · by_cases h3 : m = "meta-llama/Llama-3.3-70B-Instruct"
      · subst h3
        simp [model_registry, List.lookup] at hreg
        subst hreg
        refine hpair e4 e5 rfl ?_
        have h0 := htop e4 (by simp)
        have h1' := htop e5 (by simp)
        simp [get_best_endpoint, nthEndpoint, model_registry, List.lookup, select_least,
          h0, h1', lt_self_iff_false, Bind.bind, Except.bind, Pure.pure, Except.pure]
      · have b1 : (m == "meta-llama/Llama-3.1-8B-Instruct") = false :=
          beq_eq_false_iff_ne.mpr h1
        have b2 : (m == "Qwen/Qwen2.5-7B-Instruct") = false :=
          beq_eq_false_iff_ne.mpr h2
        have b3 : (m == "meta-llama/Llama-3.3-70B-Instruct") = false :=
          beq_eq_false_iff_ne.mpr h3
        simp [model_registry, List.lookup, b1, b2, b3] at hreg

/-- Witness for C5 on the empty cache (no backend scraped yet). -/
theorem C5_all_inf_returns_first_witness :
    get_best_endpoint ["a", "b", "c", "d", "e", "f"] []
        (some "meta-llama/Llama-3.1-8B-Instruct") = Except.ok "a" :=
  C5_all_inf_returns_first "a" "b" "c" "d" "e" "f" [] [] _ ["a", "b"]
    (by decide) (by decide)

/-- Replacing the entries stored under a present key makes lookup of that
key return the replacement. -/
lemma find?_map_replace (cache : Cache) (m : EndpointMetrics)
    (hpresent : cache.any (fun x => x.endpoint == m.endpoint) = true) :
    (cache.map (fun x => if x.endpoint == m.endpoint then m else x)).find?
      (fun x => x.endpoint == m.endpoint) = some m := by
  induction cache with
  | nil => simp at hpresent
  | cons y ys ih =>
    by_cases hy : y.endpoint = m.endpoint
    · simp [List.find?_cons, hy]
    · have hys : (ys.any fun x => x.endpoint == m.endpoint) = true := by
        simpa [hy] using hpresent
      simpa [List.find?_cons, hy] using ih hys

/-- Lookup of an absent key over a mapped replacement is unchanged for any
other key. -/
lemma find?_map_replace_ne (cache : Cache) (m : EndpointMetrics) (e : String)
    (hne : e ≠ m.endpoint) :
    (cache.map (fun x => if x.endpoint == m.endpoint then m else x)).find?
        (fun x => x.endpoint == e) =
      cache.find? (fun x => x.endpoint == e) := by
  have hme : ¬ m.endpoint = e := fun h => hne h.symm
  induction cache with
  | nil => rfl
  | cons y ys ih =>
    by_cases hy : y.endpoint = m.endpoint
    · have hye : ¬ y.endpoint = e := by rw [hy]; exact hme
      simpa [List.find?_cons, hy, hye, hme] using ih
    · by_cases hye : y.endpoint = e
      · simp [List.find?_cons, hy, hye, hne]
      · simpa [List.find?_cons, hy, hye] using ih

/-- Dict assignment stores the new entry under its key. -/
lemma lookupMetrics_cacheSet_self (cache : Cache) (m : EndpointMetrics) :
    lookupMetrics (cacheSet cache m) m.endpoint = some m := by
  unfold cacheSet lookupMetrics
  by_cases hp : cache.any (fun x => x.endpoint == m.endpoint) = true
  · rw [if_pos hp]
    exact find?_map_replace cache m hp
  · rw [if_neg hp]
    rw [List.find?_append]
    have hnone : cache.find? (fun x => x.endpoint == m.endpoint) = none := by
      rw [List.find?_eq_none]
      intro x hx hbeq
      exact hp (List.any_eq_true.mpr ⟨x, hx, hbeq⟩)
    simp [hnone]

/-- Dict assignment leaves every other key's entry unchanged. -/
lemma lookupMetrics_cacheSet_ne (cache : Cache) (m : EndpointMetrics)
    (e : String) (hne : e ≠ m.endpoint) :
    lookupMetrics (cacheSet cache m) e = lookupMetrics cache e := by
  unfold cacheSet lookupMetrics
  by_cases hp : cache.any (fun x => x.endpoint == m.endpoint) = true
  · rw [if_pos hp]
    exact find?_map_replace_ne cache m e hne
  · rw [if_neg hp]
    rw [List.find?_append]
    have hme : ¬ m.endpoint = e := fun h => hne h.symm
    have hm : (m.endpoint == e) = false := beq_eq_false_iff_ne.mpr hme
    cases hfind : cache.find? (fun x => x.endpoint == e) <;> simp [hfind, hm]

/-- A run of writes none of which touches key `e` leaves lookup at `e`
unchanged. -/
lemma lookupMetrics_foldl_of_not_mem (ms : List EndpointMetrics) (cache : Cache)
    (e : String) (h : ∀ m ∈ ms, m.endpoint ≠ e) :
    lookupMetrics (ms.foldl cacheSet cache) e = lookupMetrics cache e := by
  induction ms generalizing cache with
  | nil => rfl
  | cons m ms ih =>
    rw [List.foldl_cons]
    rw [ih (cacheSet cache m) (fun x hx => h x (List.mem_cons_of_mem m hx))]
    exact lookupMetrics_cacheSet_ne cache m e
      (fun he => h m (List.mem_cons_self m ms) he.symm)

/-- A run of writes in which every entry stored under key `e` equals `v`,
and at least one such entry occurs, leaves `v` stored under `e`. -/
lemma lookupMetrics_foldl_of_uniform (ms : List EndpointMetrics) (cache : Cache)
    (e : String) (v : EndpointMetrics)
    (hex : ∃ m ∈ ms, m.endpoint = e)
    (hall : ∀ m ∈ ms, m.endpoint = e → m = v) :
    lookupMetrics (ms.foldl cacheSet cache) e = some v := by
  induction ms generalizing cache with
  | nil => rcases hex with ⟨m, hm, -⟩; cases hm
  | cons m ms ih =>
    rw [List.foldl_cons]
    by_cases hex' : ∃ m' ∈ ms, m'.endpoint = e
    · exact ih (cacheSet cache m) hex'
        (fun x hx hxe => hall x (List.mem_cons_of_mem m hx) hxe)
    · have hme : m.endpoint = e := by
        rcases hex with ⟨m', hm', he'⟩
        rcases List.mem_cons.mp hm' with rfl | hmem
        · exact he'
        · exact absurd ⟨m', hmem, he'⟩ hex'
      have hv : m = v := hall m (List.mem_cons_self m ms) hme
      rw [lookupMetrics_foldl_of_not_mem ms (cacheSet cache m) e
        (fun m' hm' he' => hex' ⟨m', hm', he'⟩)]
      subst hv
      rw [← hme]
      exact lookupMetrics_cacheSet_self cache m

/-- The entry built by a scrape is stored under the scraped endpoint. -/
lemma fetch_endpoint_metrics_endpoint (net : String → ScrapeOutcome) (now : ℚ)
    (e : String) : (fetch_endpoint_metrics net now e).endpoint = e := by
  unfold fetch_endpoint_metrics
  split <;> rfl

/-- A scrape result depends only on the network's answer for the scraped
endpoint. -/
lemma fetch_endpoint_metrics_congr (net net' : String → ScrapeOutcome) (now : ℚ)
    (e : String) (h : net' e = net e) :
    fetch_endpoint_metrics net' now e = fetch_endpoint_metrics net now e := by
  unfold fetch_endpoint_metrics
  rw [h]

/-- C7: within one poll tick, every polled backend's cache entry is exactly
the result of its own scrape; in particular the outcome of another backend's
scrape — including a failure — cannot change it (`net'` and `net` may differ
arbitrarily at B).  The tick itself is a total function, so no scrape
outcome can stop the polling loop. -/
theorem C7_poll_tick_frame (net net' : String → ScrapeOutcome) (now : ℚ)
    (endpoints : List String) (cache : Cache) (B Bp : String)
    (hagree : ∀ e, e ≠ B → net' e = net e)
    (hmem : Bp ∈ endpoints) (hne : Bp ≠ B) :
    lookupMetrics (metrics_poll_tick net' now endpoints cache) Bp =
      some (fetch_endpoint_metrics net now Bp) := by
  have hfetch : fetch_endpoint_metrics net' now Bp = fetch_endpoint_metrics net now Bp :=
    fetch_endpoint_metrics_congr net net' now Bp (hagree Bp hne)
  unfold metrics_poll_tick
  rw [← hfetch]
  apply lookupMetrics_foldl_of_uniform
  · exact ⟨fetch_endpoint_metrics net' now Bp,
      List.mem_map_of_mem _ hmem, fetch_endpoint_metrics_endpoint net' now Bp⟩
  · rintro m hm he
    rcases List.mem_map.mp hm with ⟨x, hx, rfl⟩
    have hxBp : x = Bp := by
      rw [← fetch_endpoint_metrics_endpoint net' now x, he]
    rw [hxBp]

/-- Witness for C7: backend "a" fails to scrape (`net'` raises there) while
"b" answers; after the tick, "b" holds exactly its own healthy entry. -/
theorem C7_poll_tick_frame_witness :
    lookupMetrics
        (metrics_poll_tick
          (fun e => if e = "a" then ScrapeOutcome.exn
                    else ScrapeOutcome.response 200 "metric 1")
          0 ["a", "b"] [])
        "b" =
      some (fetch_endpoint_metrics
        (fun _ => ScrapeOutcome.response 200 "metric 1") 0 "b") :=
  C7_poll_tick_frame (fun _ => ScrapeOutcome.response 200 "metric 1")
    (fun e => if e = "a" then ScrapeOutcome.exn
              else ScrapeOutcome.response 200 "metric 1")
    0 ["a", "b"] [] "a" "b"
    (fun e he => by simp [he]) (by decide) (by decide)

end SmartLB

namespace SimpleLB

open SmartLB (model_registry)

/-- A selector call with a truthy registered model advances exactly that
model's cycle and leaves everything else unchanged. -/
lemma get_next_endpoint_registered (reg : List (String × List String))
    (endpoints : List String) (m : String) (cs : List String) (s : RRState)
    (hm : ¬ m = "") (hl : List.lookup m reg = some cs) :
    get_next_endpoint reg endpoints (some m) s =
      (cycleGet cs (s.modelCursors m),
       ⟨fun x => if x = m then s.modelCursors m + 1 else s.modelCursors x,
        s.globalCursor⟩) := by
  simp [get_next_endpoint, hm, hl]

/-- After `n` calls with a registered model, that model's cursor is `n` and
every other cursor (per-model or global) is still 0. -/
lemma rrStateAfter_cursors (reg : List (String × List String))
    (endpoints : List String) (m : String) (cs : List String)
    (hm : ¬ m = "") (hl : List.lookup m reg = some cs) (n : ℕ) :
    (rrStateAfter reg endpoints (some m) n).modelCursors m = n ∧
    (∀ m', m' ≠ m → (rrStateAfter reg endpoints (some m) n).modelCursors m' = 0) ∧
    (rrStateAfter reg endpoints (some m) n).globalCursor = 0 := by
  induction n with
  | zero => exact ⟨rfl, fun _ _ => rfl, rfl⟩
  | succ n ih =>
    simp only [rrStateAfter,
      get_next_endpoint_registered reg endpoints m cs _ hm hl]
    refine ⟨?_, ?_, ?_⟩
    · simp [ih.1]
    · intro m' hm'
      simp [hm', ih.2.1 m' hm']
    · exact ih.2.2

/-- The `n`-th call with a registered model returns position `n` of that
model's cycle. -/
lemma rrOutput_registered (reg : List (String × List String))
    (endpoints : List String) (m : String) (cs : List String)
    (hm : ¬ m = "") (hl : List.lookup m reg = some cs) (n : ℕ) :
    rrOutput reg endpoints (some m) n = cycleGet cs n := by
  unfold rrOutput
  rw [get_next_endpoint_registered reg endpoints m cs _ hm hl]
  rw [(rrStateAfter_cursors reg endpoints m cs hm hl n).1]

/-- A key found in the replica registry is a non-empty model name and its
replica list is a two-element list. -/
lemma lookup_registry_pair (e0 e1 e2 e3 e4 e5 : String) (m : String)
    (cs : List String)
    (hreg : List.lookup m (model_registry e0 e1 e2 e3 e4 e5) = some cs) :
    ¬ m = "" ∧ ∃ x y, cs = [x, y] := by
  by_cases h1 : m = "meta-llama/Llama-3.1-8B-Instruct"
  · subst h1
    simp [model_registry, List.lookup] at hreg
    subst hreg
    exact ⟨by simp, e0, e1, rfl⟩
  · by_cases h2 : m = "Qwen/Qwen2.5-7B-Instruct"
    · subst h2
      simp [model_registry, List.lookup] at hreg
      subst hreg
      exact ⟨by simp, e2, e3, rfl⟩
    · by_cases h3 : m = "meta-llama/Llama-3.3-70B-Instruct"
      · subst h3
        simp [model_registry, List.lookup] at hreg
        subst hreg
        exact ⟨by simp, e4, e5, rfl⟩
      · have b1 : (m == "meta-llama/Llama-3.1-8B-Instruct") = false :=
          beq_eq_false_iff_ne.mpr h1
        have b2 : (m == "Qwen/Qwen2.5-7B-Instruct") = false :=
          beq_eq_false_iff_ne.mpr h2
        have b3 : (m == "meta-llama/Llama-3.3-70B-Instruct") = false :=
          beq_eq_false_iff_ne.mpr h3
        simp [model_registry, List.lookup, b1, b2, b3] at hreg

/-- C6: for a registered model with `k` replicas, the round-robin output
sequence from process start is periodic with period `k`; its first period is
exactly the replica list in registry order (hence covers each replica once
per period); the model's own cursor advances exactly once per call; and the
other models' cursors and the global cursor never move. -/
theorem C6_round_robin_per_model (e0 e1 e2 e3 e4 e5 : String) (E : List String)
    (m : String) (cs : List String)
    (hreg : List.lookup m (model_registry e0 e1 e2 e3 e4 e5) = some cs) :
    (∀ i, rrOutput (model_registry e0 e1 e2 e3 e4 e5) E (some m) (i + cs.length) =
      rrOutput (model_registry e0 e1 e2 e3 e4 e5) E (some m) i) ∧
    ((List.range cs.length).map
        (rrOutput (model_registry e0 e1 e2 e3 e4 e5) E (some m)) = cs) ∧
    (∀ i, (rrStateAfter (model_registry e0 e1 e2 e3 e4 e5) E (some m)
        (i + 1)).modelCursors m =
      (rrStateAfter (model_registry e0 e1 e2 e3 e4 e5) E (some m)
        i).modelCursors m + 1) ∧
    (∀ i m', m' ≠ m → (rrStateAfter (model_registry e0 e1 e2 e3 e4 e5) E (some m)
        i).modelCursors m' = 0) ∧
    (∀ i, (rrStateAfter (model_registry e0 e1 e2 e3 e4 e5) E (some m)
        i).globalCursor = 0) := by
  obtain ⟨hm, x, y, rfl⟩ := lookup_registry_pair e0 e1 e2 e3 e4 e5 m cs hreg
  have hout := rrOutput_registered (model_registry e0 e1 e2 e3 e4 e5) E m [x, y] hm hreg
  have hcur := rrStateAfter_cursors (model_registry e0 e1 e2 e3 e4 e5) E m [x, y] hm hreg
  refine ⟨?_, ?_, ?_, ?_, ?_⟩
  · intro i
    rw [hout, hout]
    unfold cycleGet
    simp [Nat.add_mod_right]
  · have h0 := hout 0
    have h1 := hout 1
    simp only [List.length_cons, List.length_nil]
    rw [show List.range (0 + 1 + 1) = [0, 1] by rfl]
    simp only [List.map_cons, List.map_nil, h0, h1]
    simp [cycleGet]
  · intro i
    rw [(hcur (i + 1)).1, (hcur i).1]
  · intro i m' hm'
    exact (hcur i).2.1 m' hm'
  · intro i
    exact (hcur i).2.2

/-- Witness for C6 on the Qwen model: the first period is its two replicas
in registry order and the output repeats with period 2. -/
theorem C6_round_robin_per_model_witness :
    ((List.range 2).map
        (rrOutput (model_registry "a" "b" "c" "d" "e" "f") []
          (some "Qwen/Qwen2.5-7B-Instruct")) = ["c", "d"]) ∧
    rrOutput (model_registry "a" "b" "c" "d" "e" "f") []
        (some "Qwen/Qwen2.5-7B-Instruct") (0 + 2) =
      rrOutput (model_registry "a" "b" "c" "d" "e" "f") []
        (some "Qwen/Qwen2.5-7B-Instruct") 0 :=
  ⟨(C6_round_robin_per_model "a" "b" "c" "d" "e" "f" [] _ ["c", "d"]
      (by decide)).2.1,
   (C6_round_robin_per_model "a" "b" "c" "d" "e" "f" [] _ ["c", "d"]
      (by decide)).1 0⟩

end SimpleLB
